import Mathlib

/-!
Shallow embedding of `src/labeler_web.py`, a small Flask labeling tool:

* a Remote Segment Store (Supabase table `segment_images` with columns
  id, segment_name, url, label),
* a process-wide in-memory staging dict `pending_labels : Dict[int, str]`,
* a Segment Loader `load_segments_from_db`,
* three endpoints `api_segments`, `api_pending`, `api_commit`,
* an xlsx exporter built inside `api_commit` via openpyxl.

JSON values, Python `int()` / `str()` coercions and the Flask request
pipeline are modelled explicitly so that the coercion behaviour of the
`/api/pending` handler can be stated faithfully.
-/

namespace Labeler

/-- A JSON value, as produced by Flask's `request.get_json`. JSON numbers
are modelled as rationals (Python parses them to `int` or `float`). -/
inductive JsonValue where
  | null : JsonValue
  | bool (b : Bool) : JsonValue
  | num (q : ℚ) : JsonValue
  | str (s : String) : JsonValue
  | arr (xs : List JsonValue) : JsonValue
  | obj (fields : List (String × JsonValue)) : JsonValue

/-- Python exceptions that the `/api/pending` handler can raise
(uncaught) during its ad-hoc coercions. -/
inductive PyError where
  | typeError : PyError
  | valueError : PyError
  | attributeError : PyError
deriving DecidableEq

/-- An HTTP response: status code plus JSON body (Flask `jsonify`). -/
structure HttpResponse where
  status : Nat
  body : JsonValue

/-- Python truthiness of a JSON value (`None`, `False`, `0`, `""`, `[]`
and the empty dict are falsy). Used for `request.get_json(silent=True) or`. -/
def jsonTruthy : JsonValue → Bool
  | .null => false
  | .bool b => b
  | .num q => decide (q ≠ 0)
  | .str s => decide (s ≠ "")
  | .arr xs => !xs.isEmpty
  | .obj fs => !fs.isEmpty

/-- Python `data.get(key)` on a JSON value: dictionary lookup when `data`
is an object, `AttributeError` otherwise (a non-dict has no `.get`). -/
def jsonGet : JsonValue → String → Except PyError (Option JsonValue)
  | .obj fs, k => .ok ((fs.find? (fun e => e.1 == k)).map (fun e => e.2))
  | .null, _ => .error .attributeError
  | .bool _, _ => .error .attributeError
  | .num _, _ => .error .attributeError
  | .str _, _ => .error .attributeError
  | .arr _, _ => .error .attributeError

/-- Interpret a list of characters as a nonempty all-digit decimal numeral. -/
def digitsToNat? (cs : List Char) : Option Nat :=
  if cs ≠ [] ∧ cs.all Char.isDigit then
    some (cs.foldl (fun a c => a * 10 + (c.toNat - 48)) 0)
  else
    none

/-- Strip leading and trailing whitespace from a character list. -/
def stripChars (cs : List Char) : List Char :=
  ((cs.dropWhile Char.isWhitespace).reverse.dropWhile Char.isWhitespace).reverse

/-- Python `int(s)` on a string: strips surrounding whitespace, accepts an
optional sign followed by decimal digits, raises `ValueError` otherwise. -/
def parseIntOfString (s : String) : Option Int :=
  match stripChars s.toList with
  | '-' :: rest => (digitsToNat? rest).map (fun n => -(n : Int))
  | '+' :: rest => (digitsToNat? rest).map (fun n => (n : Int))
  | cs => (digitsToNat? cs).map (fun n => (n : Int))

/-- Python `int(x)` on a JSON value: numbers truncate toward zero
(`q.num.div q.den` is T-division), booleans map to 0/1, strings are
parsed (`ValueError` on failure), `None`, lists and dicts raise
`TypeError`. -/
def pyInt : JsonValue → Except PyError Int
  | .null => .error .typeError
  | .bool b => .ok (if b then 1 else 0)
  | .num q => .ok (q.num.tdiv (q.den : Int))
  | .str s =>
    match parseIntOfString s with
    | some n => .ok n
    | none => .error .valueError
  | .arr _ => .error .typeError
  | .obj _ => .error .typeError

/-- Python `str(x)` on a JSON value: total, never raises. The rendering
of numbers and containers approximates Python's `repr`; no claim depends
on those renderings, only on strings passing through unchanged and on
totality. -/
def pyStr : JsonValue → String
  | .null => "None"
  | .bool b => if b then "True" else "False"
  | .num q => if q.den == 1 then toString q.num else toString q.num ++ "/" ++ toString q.den
  | .str s => s
  | .arr _ => "[...]"
  | .obj _ => "\x7b...\x7d"

/-- A row of the remote `segment_images` table. `label` is `none` for SQL
NULL and `some s` for a stored string (possibly empty). -/
structure StoreRow where
  id : Int
  segment_name : String
  url : String
  label : Option String
deriving DecidableEq

/-- A segment as presented to the UI by the loader (dict with keys
id, segment_name, url, label). -/
structure Segment where
  id : Int
  segment_name : String
  url : String
  label : String
deriving DecidableEq

/-- The Remote Segment Store with injectable faults: `failRead` makes the
filtered read raise (caught by the loader), `failUpdate i` makes the
per-row label update for id `i` raise (caught by the commit loop). -/
structure Store where
  rows : List StoreRow
  failRead : Bool
  failUpdate : Int → Bool

/-- The in-memory Staging Map `pending_labels : Dict[int, str]`. -/
def PendingMap : Type := List (Int × String)

instance : DecidableEq PendingMap := by
  unfold PendingMap
  infer_instance

/-- Python dict lookup `m[k]` / `k in m` combined: `some v` when the key
is present with value `v`. -/
def dictGet (m : PendingMap) (k : Int) : Option String :=
  (m.find? (fun e => e.1 == k)).map (fun e => e.2)

/-- Python dict update `m[k] = v`: the key now maps to `v`, all other
keys keep their values. -/
def dictSet (m : PendingMap) (k : Int) (v : String) : PendingMap :=
  (k, v) :: m.filter (fun e => e.1 != k)

/-- The query filter the code actually sends: `.or_("label.is.null")`
selects exactly the rows whose label column IS NULL. -/
def selectNullLabel (rows : List StoreRow) : List StoreRow :=
  rows.filter (fun r => r.label.isNone)

/-- The filter promised by the code's own docstring and comment
("Load only segments whose label is NULL or empty string",
"Filter: label IS NULL OR label = ''"): rows whose label is NULL or the
empty string. Stated from those words, to compare with `selectNullLabel`. -/
def selectUnlabeledDoc (rows : List StoreRow) : List StoreRow :=
  rows.filter (fun r => r.label.isNone || r.label == some "")

/-- Lines 45-56: turn one store row into a presented segment:
`label = row.get("label") or ""`, then overridden by
`pending_labels[segment_id]` when the id is staged. -/
def overlayRow (pending : PendingMap) (r : StoreRow) : Segment :=
  let label0 := r.label.getD ""
  let label :=
    match dictGet pending r.id with
    | some l => l
    | none => label0
  { id := r.id, segment_name := r.segment_name, url := r.url, label := label }

/-- Lines 29-59, `load_segments_from_db`: run the filtered read (a
failure is caught and yields the segments accumulated so far, i.e. `[]`,
and a `None` payload is also `[]` via `response.data or []`), then map
each returned row through the staging overlay. -/
def load_segments_from_db (store : Store) (pending : PendingMap) : List Segment :=
  match store.failRead with
  | true => []
  | false => (selectNullLabel store.rows).map (overlayRow pending)

/-- Flask `jsonify` of one segment dict. -/
def segToJson (s : Segment) : JsonValue :=
  .obj [("id", .num (s.id : ℚ)), ("segment_name", .str s.segment_name),
        ("url", .str s.url), ("label", .str s.label)]

/-- One openpyxl cell assignment `ws.cell(row=r, column=c, value=v)`. -/
structure Cell where
  row : Nat
  col : Nat
  value : String
deriving DecidableEq

/-- The saved workbook: single sheet with its title, its cell
assignments and its column-width hints. -/
structure Worksheet where
  title : String
  cells : List Cell
  colWidths : List (Char × Nat)
deriving DecidableEq

/-- Lines 110-118: the data-cell loop, starting at `row_idx` and writing
segment_name, url, label into columns 1, 2, 3 of each successive row. -/
def segmentCells : List Segment → Nat → List Cell
  | [], _ => []
  | s :: rest, rowIdx =>
    ⟨rowIdx, 1, s.segment_name⟩ :: ⟨rowIdx, 2, s.url⟩ :: ⟨rowIdx, 3, s.label⟩ ::
      segmentCells rest (rowIdx + 1)

/-- Lines 100-118: fresh workbook, sheet titled "results", header cells
in row 1, column widths A=40 B=80 C=15, then the data-cell loop from
row 2. -/
def buildWorkbook (segments : List Segment) : Worksheet :=
  { title := "results",
    cells := ⟨1, 1, "segment_name"⟩ :: ⟨1, 2, "url"⟩ :: ⟨1, 3, "label"⟩ ::
      segmentCells segments 2,
    colWidths := [('A', 40), ('B', 80), ('C', 15)] }

/-- The server-side mutable world: the remote store, the staging map and
the exported file at `XLSX_PATH` (`none` before the first commit). -/
structure World where
  store : Store
  pending : PendingMap
  file : Option Worksheet

/-- Lines 67-70, `api_segments`: call the loader and answer
`200 \x7bsegments: [...]\x7d`; the world is not written. -/
def api_segments (w : World) : HttpResponse × World :=
  let rows := load_segments_from_db w.store w.pending
  (⟨200, .obj [("segments", .arr (rows.map segToJson))]⟩, w)

/-- Line 75: `request.get_json(silent=True) or \x7b\x7d` — a missing or
unparsable body gives `None`, and any falsy parse result is replaced by
the empty dict. -/
def requestData (body : Option JsonValue) : JsonValue :=
  match body with
  | none => .obj []
  | some j => if jsonTruthy j then j else .obj []

/-- Line 76: `int(data.get("id", 0))`. -/
def parsedId (body : Option JsonValue) : Except PyError Int := do
  let v ← jsonGet (requestData body) "id"
  pyInt (v.getD (.num 0))

/-- Line 77: `str(data.get("label", ""))`. -/
def parsedLabel (body : Option JsonValue) : Except PyError String := do
  let v ← jsonGet (requestData body) "label"
  pure (pyStr (v.getD (.str "")))

/-- Lines 73-81, `api_pending`: coerce the id and label out of the JSON
body, answer 400 when the id is not positive, otherwise write the
staging map and answer `\x7bok: true\x7d`. An uncaught coercion
exception is an `Except.error`. -/
def api_pending (pending : PendingMap) (body : Option JsonValue) :
    Except PyError (HttpResponse × PendingMap) := do
  let segment_id ← parsedId body
  let label ← parsedLabel body
  if segment_id ≤ 0 then
    return (⟨400, .obj [("ok", .bool false), ("error", .str "invalid segment_id")]⟩, pending)
  else
    return (⟨200, .obj [("ok", .bool true)]⟩, dictSet pending segment_id label)

/-- Line 96: `update(\x7b"label": label\x7d).eq("id", segment_id)` —
set the label column of every row whose id matches. -/
def updateLabel (rows : List StoreRow) (i : Int) (l : String) : List StoreRow :=
  rows.map (fun r => if r.id = i then { r with label := some l } else r)

/-- Lines 91-98, one iteration of the commit loop: skip segments that
are not staged; for a staged one attempt the per-id update, and a raised
update (injected via `failUpdate`) is caught and skipped. -/
def commitStep (pending : PendingMap) (st : Store) (seg : Segment) : Store :=
  match dictGet pending seg.id with
  | some label =>
    if st.failUpdate seg.id then st
    else { st with rows := updateLabel st.rows seg.id label }
  | none => st

/-- The whole commit loop over the loaded sequence, left to right. -/
def persistStaged (pending : PendingMap) (segs : List Segment) (st : Store) : Store :=
  segs.foldl (commitStep pending) st

/-- Lines 84-122, `api_commit`: load the sequence once, run the
per-segment update loop on it, rebuild the workbook from that same
sequence, save it over the previous file, clear the staging map, answer
`\x7bok: true\x7d`. -/
def api_commit (w : World) : HttpResponse × World :=
  let segments := load_segments_from_db w.store w.pending
  let store' := persistStaged w.pending segments w.store
  let wb := buildWorkbook segments
  (⟨200, .obj [("ok", .bool true)]⟩,
   { store := store', pending := ([] : PendingMap), file := some wb })

/-- The cells of a worksheet lying in row `n`, in sheet order. -/
def sheetRow (ws : Worksheet) (n : Nat) : List Cell :=
  ws.cells.filter (fun c => c.row == n)

/-- A concrete partial-failure world from the spec's scenario: two
unlabeled rows, both staged, the update for id 1 raising and the one for
id 2 succeeding. -/
def mixedFailWorld : World :=
  { store := { rows := [⟨1, "a", "u1", none⟩, ⟨2, "b", "u2", none⟩],
               failRead := false, failUpdate := fun i => i == 1 },
    pending := [(1, "cat"), (2, "dog")],
    file := none }

theorem overlayRow_id (p : PendingMap) (r : StoreRow) : (overlayRow p r).id = r.id :=
  rfl

theorem persistStaged_cons (p : PendingMap) (t : Segment) (rest : List Segment) (st : Store) :
    persistStaged p (t :: rest) st = persistStaged p rest (commitStep p st t) :=
  rfl

theorem commitStep_failUpdate (p : PendingMap) (st : Store) (seg : Segment) :
    (commitStep p st seg).failUpdate = st.failUpdate := by
  unfold commitStep
  cases dictGet p seg.id with
  | none => rfl
  | some l =>
    dsimp only
    split <;> rfl

theorem updateLabel_filter_ne (rows : List StoreRow) (i : Int) (l : String) (n : Int)
    (h : n ≠ i) :
    (updateLabel rows i l).filter (fun r => r.id == n) = rows.filter (fun r => r.id == n) := by
  induction rows with
  | nil => rfl
  | cons r rest ih =>
    simp only [updateLabel, List.map_cons, List.filter_cons] at *
    by_cases hri : r.id = i
    · simp [hri, ih, show ¬(i = n) from fun hh => h hh.symm]
    · simp [hri, ih]

theorem updateLabel_filter_eq (rows : List StoreRow) (i : Int) (l : String) :
    (updateLabel rows i l).filter (fun r => r.id == i)
      = (rows.filter (fun r => r.id == i)).map (fun r => { r with label := some l }) := by
  induction rows with
  | nil => rfl
  | cons r rest ih =>
    simp only [updateLabel, List.map_cons, List.filter_cons] at *
    by_cases hri : r.id = i
    · simp [hri, ih]
    · simp [hri, ih]

theorem commitStep_filter_ne (p : PendingMap) (st : Store) (seg : Segment) (n : Int)
    (h : seg.id ≠ n) :
    (commitStep p st seg).rows.filter (fun r => r.id == n)
      = st.rows.filter (fun r => r.id == n) := by
  unfold commitStep
  cases dictGet p seg.id with
  | none => rfl
  | some l =>
    dsimp only
    by_cases hf : st.failUpdate seg.id
    · simp [hf]
    · simp [hf, updateLabel_filter_ne st.rows seg.id l n (Ne.symm h)]

theorem persistStaged_filter_skip (p : PendingMap) (segs : List Segment) (st : Store) (n : Int)
    (h : ∀ s ∈ segs, s.id ≠ n) :
    (persistStaged p segs st).rows.filter (fun r => r.id == n)
      = st.rows.filter (fun r => r.id == n) := by
  induction segs generalizing st with
  | nil => rfl
  | cons t rest ih =>
    rw [persistStaged_cons]
    rw [ih (commitStep p st t) (fun s hs => h s (List.mem_cons_of_mem t hs))]
    exact commitStep_filter_ne p st t n (h t (List.mem_cons_self t rest))

theorem persistStaged_filter_staged (p : PendingMap) (segs : List Segment) (st : Store)
    (s : Segment) (l : String)
    (hnd : (segs.map Segment.id).Nodup) (hs : s ∈ segs)
    (hl : dictGet p s.id = some l) (hfail : st.failUpdate s.id = false) :
    (persistStaged p segs st).rows.filter (fun r => r.id == s.id)
      = (st.rows.filter (fun r => r.id == s.id)).map (fun r => { r with label := some l }) := by
  induction segs generalizing st with
  | nil => cases hs
  | cons t rest ih =>
    rw [persistStaged_cons]
    simp only [List.map_cons, List.nodup_cons] at hnd
    rcases List.mem_cons.mp hs with rfl | hs'
    · have hstep : commitStep p st s = { st with rows := updateLabel st.rows s.id l } := by
        unfold commitStep
        rw [hl]
        simp [hfail]
      rw [hstep]
      have hnotin : ∀ s' ∈ rest, s'.id ≠ s.id := by
        intro s' hmem heq
        exact hnd.1 (heq ▸ List.mem_map_of_mem Segment.id hmem)
      rw [persistStaged_filter_skip p rest _ s.id hnotin]
      exact updateLabel_filter_eq st.rows s.id l
    · have ht : t.id ≠ s.id := by
        intro heq
        exact hnd.1 (heq ▸ List.mem_map_of_mem Segment.id hs')
      rw [ih (commitStep p st t) hnd.2 hs'
        (by rw [commitStep_failUpdate]; exact hfail)]
      rw [commitStep_filter_ne p st t s.id ht]

theorem persistStaged_filter_failed (p : PendingMap) (segs : List Segment) (st : Store)
    (s : Segment)
    (hnd : (segs.map Segment.id).Nodup) (hs : s ∈ segs)
    (hfail : st.failUpdate s.id = true) :
    (persistStaged p segs st).rows.filter (fun r => r.id == s.id)
      = st.rows.filter (fun r => r.id == s.id) := by
  induction segs generalizing st with
  | nil => cases hs
  | cons t rest ih =>
    rw [persistStaged_cons]
    simp only [List.map_cons, List.nodup_cons] at hnd
    rcases List.mem_cons.mp hs with rfl | hs'
    · have hstep : commitStep p st s = st := by
        unfold commitStep
        cases dictGet p s.id with
        | none => rfl
        | some l => simp [hfail]
      rw [hstep]
      have hnotin : ∀ s' ∈ rest, s'.id ≠ s.id := by
        intro s' hmem heq
        exact hnd.1 (heq ▸ List.mem_map_of_mem Segment.id hmem)
      exact persistStaged_filter_skip p rest st s.id hnotin
    · have ht : t.id ≠ s.id := by
        intro heq
        exact hnd.1 (heq ▸ List.mem_map_of_mem Segment.id hs')
      rw [ih (commitStep p st t) hnd.2 hs'
        (by rw [commitStep_failUpdate]; exact hfail)]
      rw [commitStep_filter_ne p st t s.id ht]

theorem load_map_id (store : Store) (pending : PendingMap) (hfr : store.failRead = false) :
    (load_segments_from_db store pending).map Segment.id
      = (selectNullLabel store.rows).map StoreRow.id := by
  simp only [load_segments_from_db, hfr, List.map_map]
  exact List.map_congr_left (fun r _ => rfl)

theorem segmentCells_row_ge (segs : List Segment) (i : Nat) :
    ∀ c ∈ segmentCells segs i, i ≤ c.row := by
  induction segs generalizing i with
  | nil =>
    intro c hc
    cases hc
  | cons s rest ih =>
    intro c hc
    simp only [segmentCells, List.mem_cons] at hc
    rcases hc with rfl | rfl | rfl | hc
    · exact Nat.le_refl i
    · exact Nat.le_refl i
    · exact Nat.le_refl i
    · exact Nat.le_of_succ_le (ih (i + 1) c hc)

theorem segmentCells_filter_lt (segs : List Segment) (i n : Nat) (h : n < i) :
    (segmentCells segs i).filter (fun c => c.row == n) = [] := by
  rw [List.filter_eq_nil_iff]
  intro c hc
  have := segmentCells_row_ge segs i c hc
  simp only [beq_iff_eq]
  omega

theorem segmentCells_length (segs : List Segment) (i : Nat) :
    (segmentCells segs i).length = 3 * segs.length := by
  induction segs generalizing i with
  | nil => rfl
  | cons s rest ih =>
    simp only [segmentCells, List.length_cons, ih, List.length_cons]
    ring

theorem segmentCells_filter_get (segs : List Segment) (i j : Nat) (s : Segment)
    (hj : segs[j]? = some s) :
    (segmentCells segs i).filter (fun c => c.row == i + j) =
      [⟨i + j, 1, s.segment_name⟩, ⟨i + j, 2, s.url⟩, ⟨i + j, 3, s.label⟩] := by
  induction segs generalizing i j with
  | nil => simp at hj
  | cons t rest ih =>
    cases j with
    | zero =>
      have ht : t = s := by simpa using hj
      subst ht
      simp only [Nat.add_zero, segmentCells, List.filter_cons]
      rw [segmentCells_filter_lt rest (i + 1) i (Nat.lt_succ_self i)]
      simp
    | succ j' =>
      have hj' : rest[j']? = some s := by simpa using hj
      have harith : i + (j' + 1) = i + 1 + j' := by omega
      have hne : (i == i + 1 + j') = false := by
        simp only [beq_eq_false_iff_ne]
        omega
      simp only [segmentCells, List.filter_cons, harith, hne, ih (i + 1) j' hj']
      simp

theorem dictSet_dictSet (m : PendingMap) (k : Int) (v1 v2 : String) :
    dictSet (dictSet m k v1) k v2 = dictSet m k v2 := by
  simp [dictSet, List.filter_filter]

/-- C1: the claim says listing returns exactly the store rows whose
stored label is null OR the empty string. The query the code sends
(`.or_("label.is.null")`) only applies the null branch, contradicting
the function's own docstring and comment: a row whose stored label is
the empty string (non-null) is never returned. At the failing input —
one row with stored label `""`, empty staging, no store fault — the code
returns no rows, while the documented filter selects the row. -/
theorem load_excludes_empty_string_label :
    load_segments_from_db ⟨[⟨1, "seg1", "u1", some ""⟩], false, fun _ => false⟩ [] = []
    ∧ selectUnlabeledDoc [⟨1, "seg1", "u1", some ""⟩] = [⟨1, "seg1", "u1", some ""⟩] :=
  ⟨rfl, rfl⟩

/-- C2: for every stage request whose id coercion succeeds, a
non-positive id yields status 400 with body
`\x7bok: false, error: "invalid segment_id"\x7d` and an unchanged
staging map, while a positive id unconditionally overwrites (or inserts)
the staging entry for that id with the coerced label — no store lookup
is involved — and yields `\x7bok: true\x7d`. -/
theorem api_pending_validation (pending : PendingMap) (body : Option JsonValue)
    (n : Int) (l : String)
    (hid : parsedId body = .ok n) (hlab : parsedLabel body = .ok l) :
    (n ≤ 0 → api_pending pending body =
      .ok (⟨400, .obj [("ok", .bool false), ("error", .str "invalid segment_id")]⟩, pending))
    ∧ (0 < n → api_pending pending body =
      .ok (⟨200, .obj [("ok", .bool true)]⟩, dictSet pending n l)) := by
  unfold api_pending
  rw [hid, hlab]
  constructor
  · intro h
    simp [Bind.bind, Except.bind, h, Pure.pure, Except.pure]
  · intro h
    simp [Bind.bind, Except.bind, Int.not_le.mpr h, Pure.pure, Except.pure]

theorem api_pending_validation_witness :
    parsedId (some (.obj [("id", .num (mkRat 7 1)), ("label", .str "cat")])) = .ok 7
    ∧ parsedLabel (some (.obj [("id", .num (mkRat 7 1)), ("label", .str "cat")])) = .ok "cat"
    ∧ api_pending [] (some (.obj [("id", .num (mkRat 7 1)), ("label", .str "cat")])) =
        .ok (⟨200, .obj [("ok", .bool true)]⟩, dictSet [] 7 "cat") :=
  ⟨rfl, rfl,
    (api_pending_validation [] (some (.obj [("id", .num (mkRat 7 1)), ("label", .str "cat")]))
      7 "cat" rfl rfl).2 (by norm_num)⟩

/-- C4: the file written by commit is built from the segment sequence
loaded once at the start of the handler (staged values, whether or not
their per-row update succeeded), not from a re-read of the store after
the updates; in the partial-failure world the saved file differs from
the one a post-update re-read would produce. -/
theorem api_commit_export_from_preread (w : World) :
    ((api_commit w).2.file = some (buildWorkbook (load_segments_from_db w.store w.pending)))
    ∧ (api_commit mixedFailWorld).2.file ≠
        some (buildWorkbook (load_segments_from_db (api_commit mixedFailWorld).2.store
          (api_commit mixedFailWorld).2.pending)) :=
  ⟨rfl, by decide⟩

/-- C5: every commit ends with an empty Staging Map, whatever the store
contents, the staged entries and the injected per-row update failures. -/
theorem api_commit_clears_pending (w : World) :
    (api_commit w).2.pending = ([] : PendingMap) :=
  rfl

/-- C6: listing always answers 200 with body `\x7bsegments: [...]\x7d`
built from the loader's output, and the loader turns any store read
failure into zero rows, so no error ever propagates to the caller. -/
theorem api_segments_fail_soft (w : World) (rows : List StoreRow)
    (fU : Int → Bool) (p : PendingMap) :
    (api_segments w).1.status = 200
    ∧ (api_segments w).1.body =
        .obj [("segments", .arr ((load_segments_from_db w.store w.pending).map segToJson))]
    ∧ load_segments_from_db ⟨rows, true, fU⟩ p = [] :=
  ⟨rfl, rfl, rfl⟩

/-- C7: staging is last-write-wins and idempotent — re-staging an id
replaces its entry outright, so staging twice equals staging the last
value once (hence identical listings), re-staging the same value is
staging once, and whenever a presented row's id is staged the presented
label is the staged one, regardless of the stored label. -/
theorem staging_last_write_wins (m : PendingMap) (k : Int) (v v1 v2 : String)
    (store : Store) (p : PendingMap) (r : StoreRow) (l : String) :
    dictSet (dictSet m k v1) k v2 = dictSet m k v2
    ∧ dictSet (dictSet m k v) k v = dictSet m k v
    ∧ load_segments_from_db store (dictSet (dictSet m k v1) k v2)
        = load_segments_from_db store (dictSet m k v2)
    ∧ (dictGet p r.id = some l → (overlayRow p r).label = l) := by
  refine ⟨dictSet_dictSet m k v1 v2, dictSet_dictSet m k v v, ?_, ?_⟩
  · rw [dictSet_dictSet]
  · intro h
    simp [overlayRow, h]

theorem staging_last_write_wins_witness :
    dictGet [(4, "z")] (4 : Int) = some "z"
    ∧ (overlayRow [(4, "z")] ⟨4, "n", "u", some "stored"⟩).label = "z" :=
  ⟨rfl,
    (staging_last_write_wins [] 0 "" "" "" ⟨[], false, fun _ => false⟩
      [(4, "z")] ⟨4, "n", "u", some "stored"⟩ "z").2.2.2 rfl⟩

/-- C9: a list-segments request leaves the Staging Map — indeed the
whole world — exactly as it found it. -/
theorem api_segments_preserves_state (w : World) :
    (api_segments w).2.pending = w.pending ∧ (api_segments w).2 = w :=
  ⟨rfl, rfl⟩

/-- C10: the stage endpoint coerces instead of validating: a missing
body or missing id defaults to 0 and gets the 400 answer; a fractional
id such as 2.9 is truncated by `int()` and staged under key 2; an id
that `int()` cannot convert — a non-numeric string raises `ValueError`,
`None` raises `TypeError` — escapes as an uncaught exception instead of
the documented 400; and any JSON value for the label is accepted after
`str()` coercion. -/
theorem api_pending_coercion (pending : PendingMap) (l : String) (lab : JsonValue) :
    api_pending pending none =
      .ok (⟨400, .obj [("ok", .bool false), ("error", .str "invalid segment_id")]⟩, pending)
    ∧ api_pending pending (some (.obj [])) =
      .ok (⟨400, .obj [("ok", .bool false), ("error", .str "invalid segment_id")]⟩, pending)
    ∧ api_pending pending (some (.obj [("id", .num (mkRat 29 10)), ("label", .str l)])) =
      .ok (⟨200, .obj [("ok", .bool true)]⟩, dictSet pending 2 l)
    ∧ api_pending pending (some (.obj [("id", .str "abc"), ("label", .str l)])) =
      .error .valueError
    ∧ api_pending pending (some (.obj [("id", .null), ("label", .str l)])) =
      .error .typeError
    ∧ api_pending pending (some (.obj [("id", .num (mkRat 5 1)), ("label", lab)])) =
      .ok (⟨200, .obj [("ok", .bool true)]⟩, dictSet pending 5 (pyStr lab)) :=
  ⟨rfl, rfl, rfl, rfl, rfl, rfl⟩

/-- C3: commit answers `\x7bok: true\x7d` whatever the per-row update
faults, and each staged segment of the loaded sequence is persisted by
its own independent update: with distinct store ids, the rows bearing a
staged segment's id end up with the staged label when that id's update
does not fail — regardless of failures injected on any other ids,
before or after it in the sequence (no abort, no rollback) — and stay
untouched when its own update fails (logged and skipped). -/
theorem api_commit_per_row_independent (w : World) (s : Segment) (l : String)
    (hnd : (w.store.rows.map StoreRow.id).Nodup)
    (hs : s ∈ load_segments_from_db w.store w.pending)
    (hl : dictGet w.pending s.id = some l) :
    (api_commit w).1 = ⟨200, .obj [("ok", .bool true)]⟩
    ∧ ((api_commit w).2.store.rows.filter (fun r => r.id == s.id)
        = if w.store.failUpdate s.id
          then w.store.rows.filter (fun r => r.id == s.id)
          else (w.store.rows.filter (fun r => r.id == s.id)).map
            (fun r => { r with label := some l })) := by
  refine ⟨rfl, ?_⟩
  cases hfr : w.store.failRead with
  | true =>
    exfalso
    rw [load_segments_from_db, hfr] at hs
    cases hs
  | false =>
    have hsegnd : ((load_segments_from_db w.store w.pending).map Segment.id).Nodup := by
      rw [load_map_id w.store w.pending hfr]
      exact List.Nodup.sublist (List.Sublist.map _ (List.filter_sublist _)) hnd
    have hcommit : (api_commit w).2.store
        = persistStaged w.pending (load_segments_from_db w.store w.pending) w.store := rfl
    rw [hcommit]
    by_cases hf : w.store.failUpdate s.id = true
    · rw [if_pos hf]
      exact persistStaged_filter_failed w.pending _ w.store s hsegnd hs hf
    · rw [if_neg hf]
      exact persistStaged_filter_staged w.pending _ w.store s l hsegnd hs hl
        (Bool.eq_false_iff.mpr hf)

theorem api_commit_per_row_independent_witness :
    (mixedFailWorld.store.rows.map StoreRow.id).Nodup
    ∧ (⟨2, "b", "u2", "dog"⟩ : Segment)
        ∈ load_segments_from_db mixedFailWorld.store mixedFailWorld.pending
    ∧ dictGet mixedFailWorld.pending 2 = some "dog"
    ∧ ((api_commit mixedFailWorld).2.store.rows.filter (fun r => r.id == (2 : Int))
        = if mixedFailWorld.store.failUpdate 2
          then mixedFailWorld.store.rows.filter (fun r => r.id == (2 : Int))
          else (mixedFailWorld.store.rows.filter (fun r => r.id == (2 : Int))).map
            (fun r => { r with label := some "dog" })) :=
  ⟨by decide, by decide, rfl,
    (api_commit_per_row_independent mixedFailWorld ⟨2, "b", "u2", "dog"⟩ "dog"
      (by decide) (by decide) rfl).2⟩

/-- C8: the workbook rebuilt on commit has the single sheet "results",
the header row exactly segment_name, url, label in columns 1-3, column
widths A=40 B=80 C=15, exactly one data row per input segment in input
order (row j+2 holds segment j's name, url & label, and the cell count
is 3 + 3·n), an empty input gives a header-only sheet, and the saved
file is this workbook regardless of what file was there before. -/
theorem buildWorkbook_format (segs : List Segment) (w : World) (j : Nat) (s : Segment)
    (hj : segs[j]? = some s) :
    (buildWorkbook segs).title = "results"
    ∧ sheetRow (buildWorkbook segs) 1 =
        [⟨1, 1, "segment_name"⟩, ⟨1, 2, "url"⟩, ⟨1, 3, "label"⟩]
    ∧ (buildWorkbook segs).colWidths = [('A', 40), ('B', 80), ('C', 15)]
    ∧ (buildWorkbook segs).cells.length = 3 + 3 * segs.length
    ∧ sheetRow (buildWorkbook segs) (j + 2) =
        [⟨j + 2, 1, s.segment_name⟩, ⟨j + 2, 2, s.url⟩, ⟨j + 2, 3, s.label⟩]
    ∧ (buildWorkbook []).cells = [⟨1, 1, "segment_name"⟩, ⟨1, 2, "url"⟩, ⟨1, 3, "label"⟩]
    ∧ (api_commit w).2.file = some (buildWorkbook (load_segments_from_db w.store w.pending)) := by
  refine ⟨rfl, ?_, rfl, ?_, ?_, rfl, rfl⟩
  · unfold sheetRow buildWorkbook
    simp only [List.filter_cons]
    rw [segmentCells_filter_lt segs 2 1 (by omega)]
    simp
  · simp only [buildWorkbook, List.length_cons, segmentCells_length]
    omega
  · unfold sheetRow buildWorkbook
    simp only [List.filter_cons]
    have h1 : ((1 : Nat) == j + 2) = false := by
      simp only [beq_eq_false_iff_ne]
      omega
    have h2 : j + 2 = 2 + j := by omega
    simp only [h1, h2, segmentCells_filter_get segs 2 j s hj]
    have h3 : ¬((1 : Nat) = 2 + j) := by omega
    simp [h3]

theorem buildWorkbook_format_witness :
    ([⟨9, "nm", "uu", "lb"⟩] : List Segment)[0]? = some (⟨9, "nm", "uu", "lb"⟩ : Segment)
    ∧ sheetRow (buildWorkbook [⟨9, "nm", "uu", "lb"⟩]) (0 + 2) =
        [⟨0 + 2, 1, "nm"⟩, ⟨0 + 2, 2, "uu"⟩, ⟨0 + 2, 3, "lb"⟩] :=
  ⟨rfl,
    (buildWorkbook_format [⟨9, "nm", "uu", "lb"⟩] mixedFailWorld 0 ⟨9, "nm", "uu", "lb"⟩
      rfl).2.2.2.2.1⟩

end Labeler
